import Mathlib

/-!
Shallow embedding of the role-normalized attribution engine
(`src/app/analytics/league_distribution.py` and
`src/app/analytics/attribution_engine.py`).

Python floats are modelled as exact rationals (`ℚ`); Python's `round(x, k)`
(round-half-to-even on the k-th decimal) is modelled by `rnd`/`round1`/... on
rationals.  Python dicts are modelled as association lists consulted with
`alookup` (first hit wins, matching dict key uniqueness); `dict.get(k)`
returning `None` for a missing key is modelled with `Option`.
-/

namespace Calcio

/-- Python's `round` to an integer: round half to even (banker's rounding). -/
def rnd (x : ℚ) : ℤ :=
  if x - ⌊x⌋ < 1/2 then ⌊x⌋
  else if 1/2 < x - ⌊x⌋ then ⌊x⌋ + 1
  else if Even ⌊x⌋ then ⌊x⌋ else ⌊x⌋ + 1

/-- Python's `round(x, 1)`. -/
def round1 (x : ℚ) : ℚ := (rnd (10 * x) : ℚ) / 10

/-- Python's `round(x, 2)`. -/
def round2 (x : ℚ) : ℚ := (rnd (100 * x) : ℚ) / 100

/-- Python's `round(x, 3)`. -/
def round3 (x : ℚ) : ℚ := (rnd (1000 * x) : ℚ) / 1000

theorem rnd_intCast (n : ℤ) : rnd (n : ℚ) = n := by
  unfold rnd
  rw [Int.floor_intCast]
  norm_num

theorem floor_le_rnd (x : ℚ) : ⌊x⌋ ≤ rnd x := by
  unfold rnd
  split_ifs <;> omega

theorem rnd_le_floor_add_one (x : ℚ) : rnd x ≤ ⌊x⌋ + 1 := by
  unfold rnd
  split_ifs <;> omega

theorem rnd_mono {x y : ℚ} (h : x ≤ y) : rnd x ≤ rnd y := by
  rcases lt_or_eq_of_le (Int.floor_mono h) with hf | hf
  · calc rnd x ≤ ⌊x⌋ + 1 := rnd_le_floor_add_one x
    _ ≤ ⌊y⌋ := by omega
    _ ≤ rnd y := floor_le_rnd y
  · have hxy : x - ((⌊y⌋ : ℤ) : ℚ) ≤ y - ((⌊y⌋ : ℤ) : ℚ) := by
      rw [← hf]; exact sub_le_sub_right h _
    unfold rnd
    rw [hf]
    split_ifs <;> first | omega | (exfalso; linarith)

theorem round1_mono {x y : ℚ} (h : x ≤ y) : round1 x ≤ round1 y := by
  unfold round1
  have hr : rnd (10 * x) ≤ rnd (10 * y) := rnd_mono (by linarith)
  have h10 : (0:ℚ) < 10 := by norm_num
  exact (div_le_div_iff_of_pos_right h10).mpr (by exact_mod_cast hr)

/-- `round1` fixes every rational with at most one decimal digit. -/
theorem round1_tenth_int (z : ℤ) : round1 ((z : ℚ) / 10) = (z : ℚ) / 10 := by
  unfold round1
  have : (10 : ℚ) * ((z : ℚ) / 10) = (z : ℚ) := by ring
  rw [this, rnd_intCast]

theorem round1_intCast (n : ℤ) : round1 (n : ℚ) = n := by
  have h := round1_tenth_int (10 * n)
  have h1 : ((10 * n : ℤ) : ℚ) / 10 = (n : ℚ) := by push_cast; ring
  rw [h1] at h
  exact h

/-- `round1` always produces a rational with at most one decimal digit,
so a second application (or subtracting from an integer and re-rounding)
changes nothing. -/
theorem round1_eq_int_div_ten (x : ℚ) : ∃ z : ℤ, round1 x = (z : ℚ) / 10 :=
  ⟨rnd (10 * x), rfl⟩

theorem round1_sub_round1 (a : ℤ) (x : ℚ) :
    round1 ((a : ℚ) - round1 x) = (a : ℚ) - round1 x := by
  obtain ⟨z, hz⟩ := round1_eq_int_div_ten x
  rw [hz]
  have h1 : (a : ℚ) - (z : ℚ) / 10 = ((10 * a - z : ℤ) : ℚ) / 10 := by
    push_cast; ring
  rw [h1, round1_tenth_int]

-- ---------------------------------------------------------------------------
-- Constants (league_distribution.py / attribution_engine.py)
-- ---------------------------------------------------------------------------

def MIN_MINUTES : ℚ := 300
def RELIABILITY_MINUTES : ℚ := 1200

def INVERSE_METRICS : List String := ["goals_conceded_per_90"]
def DIRECT_SCORE_METRICS : List String := ["captain"]
def CAPTAIN_SCORE_YES : ℚ := 85
def CAPTAIN_SCORE_NO : ℚ := 40

/-- Python dict lookup, `d.get(k)`: first matching key wins (dict keys are
unique, so this is exact). -/
def alookup {κ α : Type} [DecidableEq κ] : List (κ × α) → κ → Option α
  | [], _ => none
  | (k, v) :: rest, key => if key = k then some v else alookup rest key

theorem alookup_eq_none {κ α : Type} [DecidableEq κ]
    (l : List (κ × α)) (key : κ) (h : key ∉ l.map Prod.fst) : alookup l key = none := by
  induction l with
  | nil => rfl
  | cons p rest ih =>
    simp only [List.map_cons, List.mem_cons] at h
    push_neg at h
    simp only [alookup]
    rw [if_neg h.1]
    exact ih h.2

-- ---------------------------------------------------------------------------
-- league_distribution.py: helpers
-- ---------------------------------------------------------------------------

/-- `bisect.bisect_left(sorted_values, value)`: on an ascending list this is
the number of elements strictly below `value` (the Python library computes it
by binary search; the count is its defining property on sorted input). -/
def bisect_left (sorted_values : List ℚ) (value : ℚ) : ℕ :=
  sorted_values.countP (fun a => a < value)

/-- `bisect.bisect_right(sorted_values, value)`: the number of elements
less than or equal to `value` on an ascending list. -/
def bisect_right (sorted_values : List ℚ) (value : ℚ) : ℕ :=
  sorted_values.countP (fun a => a ≤ value)

/-- `league_distribution._empirical_percentile` (lines 171-179). -/
def _empirical_percentile (value : ℚ) (sorted_values : List ℚ) : ℚ :=
  let n := sorted_values.length
  if n = 0 then 50
  else
    let below := bisect_left sorted_values value
    let above := bisect_right sorted_values value
    let equal : ℚ := (above : ℚ) - (below : ℚ)
    round1 (((below : ℚ) + (1/2) * equal) / (n : ℚ) * 100)

/-- `league_distribution._winsorize` (lines 160-168), at its default
percentile parameters `lower_pct = 1.0`, `upper_pct = 99.0`
(`int(n * pct / 100)` truncates, i.e. floor for nonnegative `n`). -/
def _winsorize (values : List ℚ) : List ℚ :=
  let n := values.length
  if n < 10 then values
  else
    let s := values.insertionSort (· ≤ ·)
    let lo := s.getD (max 0 (n * 1 / 100)) 0
    let hi := s.getD (min (n - 1) (n * 99 / 100)) 0
    values.map (fun v => max lo (min hi v))

-- ---------------------------------------------------------------------------
-- attribution_engine.py: _shrink
-- ---------------------------------------------------------------------------

/-- `attribution_engine._shrink` (lines 202-205). -/
def _shrink (percentile : ℚ) (minutes : ℚ) : ℚ :=
  let reliability := min 1 (minutes / RELIABILITY_MINUTES)
  round1 (50 + reliability * (percentile - 50))

example : _empirical_percentile (3/10) [1/10, 2/10, 3/10, 4/10, 5/10] = 50 := by
  unfold _empirical_percentile bisect_left bisect_right round1 rnd
  norm_num [List.countP_cons]

example : _empirical_percentile 1 [1, 2, 3] = 167/10 := by
  unfold _empirical_percentile bisect_left bisect_right round1 rnd
  norm_num [List.countP_cons, Int.floor_eq_iff]

example : _shrink 90 1200 = 90 := by
  unfold _shrink RELIABILITY_MINUTES round1 rnd
  norm_num [min_def]

example : _shrink 90 600 = 70 := by
  unfold _shrink RELIABILITY_MINUTES round1 rnd
  norm_num [min_def]

example : _winsorize [1,2,3] = [1,2,3] := by
  unfold _winsorize
  norm_num

-- ---------------------------------------------------------------------------
-- league_distribution.py: position normalization
-- ---------------------------------------------------------------------------

/-- Python's `str.lower()` (the position labels are ASCII). -/
def pyLower (s : String) : String := ⟨s.data.map Char.toLower⟩

/-- Python's `str.strip()`: drop leading and trailing whitespace. -/
def pyStrip (s : String) : String :=
  ⟨((s.data.dropWhile (fun c => c.isWhitespace)).reverse.dropWhile
      (fun c => c.isWhitespace)).reverse⟩

def _POSITION_MAP : List (String × String) := [
  ("goalkeeper", "Goalkeeper"),
  ("defender", "Defender"),
  ("centre-back", "Defender"),
  ("center-back", "Defender"),
  ("right-back", "Defender"),
  ("left-back", "Defender"),
  ("midfielder", "Midfielder"),
  ("defensive midfield", "Midfielder"),
  ("central midfield", "Midfielder"),
  ("attacking midfield", "Midfielder"),
  ("right midfield", "Midfielder"),
  ("left midfield", "Midfielder"),
  ("attacker", "Attacker"),
  ("forward", "Attacker"),
  ("striker", "Attacker"),
  ("centre-forward", "Attacker"),
  ("right winger", "Attacker"),
  ("left winger", "Attacker"),
  ("second striker", "Attacker"),
  ("winger", "Attacker")]

def VALID_ROLES : List String := ["Goalkeeper", "Defender", "Midfielder", "Attacker"]

/-- The lookup key `raw.strip().lower()` used by `normalize_position`. -/
def positionKey (s : String) : String := pyLower (pyStrip s)

/-- `league_distribution.normalize_position` (lines 62-75).  A `None`
position is `none`; Python's `if not raw` is true exactly for `None` and
the empty string. -/
def normalize_position (raw : Option String) : String :=
  match raw with
  | none => "Midfielder"
  | some s =>
    if s = "" then "Midfielder"
    else
      match alookup _POSITION_MAP (positionKey s) with
      | some mapped => mapped
      | none => if s ∈ VALID_ROLES then s else "Midfielder"

example : normalize_position (some "Centre-Back") = "Defender" := by decide
example : normalize_position (some "  right winger ") = "Attacker" := by decide
example : normalize_position (some "libero") = "Midfielder" := by decide
example : normalize_position none = "Midfielder" := by decide

-- ---------------------------------------------------------------------------
-- league_distribution.py: derived metrics (compute_player_metrics)
-- ---------------------------------------------------------------------------

/-- `league_distribution._per_90` (lines 138-141). -/
def _per_90 (value : Option ℚ) (minutes : Option ℚ) : Option ℚ :=
  match value, minutes with
  | some v, some m => if m < MIN_MINUTES then none else some (round3 (v / m * 90))
  | _, _ => none

/-- `league_distribution._pct` (lines 144-147). -/
def _pct (num : Option ℚ) (denom : Option ℚ) : Option ℚ :=
  match num, denom with
  | some nu, some de => if de = 0 then none else some (round1 (nu / de * 100))
  | _, _ => none

/-- `league_distribution._nullable_float` (lines 150-157); the inputs of the
embedding are already numeric, so the `float()` conversion is the identity
and its `ValueError` branch cannot fire. -/
def _nullable_float (val : Option ℚ) : Option ℚ :=
  match val with
  | none => none
  | some v => if 0 < v then some v else none

/-- `(clean_sheet_data or {}).get(api_pid, (None, None))`: the dict is keyed
by player id and holds `(clean_sheets, matches_played)` pairs. -/
def csLookup (clean_sheet_data : List (ℚ × ℚ × ℚ)) (pid : Option ℚ) :
    Option ℚ × Option ℚ :=
  match pid with
  | none => (none, none)
  | some p =>
    match alookup (clean_sheet_data.map (fun e => (e.1, e.2))) p with
    | some cm => (some cm.1, some cm.2)
    | none => (none, none)

/-- `league_distribution.compute_player_metrics` (lines 186-261), as the
lookup function of the returned dict: a key the dict does not carry (such as
`"captain"`) and a key stored with value `None` both read back as `none`,
exactly as `dict.get` reports them to the scorer. -/
def compute_player_metrics (stats : String → Option ℚ)
    (clean_sheet_data : List (ℚ × ℚ × ℚ)) : String → Option ℚ :=
  let minutes := stats "minutes"
  let rating := stats "rating"
  let api_pid := stats "api_player_id"
  let cs_data := csLookup clean_sheet_data api_pid
  let clean_sheet_rate : Option ℚ :=
    match cs_data.1, cs_data.2 with
    | some c, some m => if 0 < m then some (round1 (c / m * 100)) else none
    | _, _ => none
  let penalty_saved := stats "penalty_saved"
  let appearances := stats "appearances"
  let penalty_saved_rate : Option ℚ :=
    match penalty_saved, appearances with
    | some p, some a => if 0 < a then some (round1 (p / a * 100)) else none
    | _, _ => none
  let saves := stats "saves"
  let goals_conceded := stats "goals_conceded"
  let shots_faced := saves.getD 0 + goals_conceded.getD 0
  let save_pct : Option ℚ :=
    if 0 < shots_faced then some (round1 (saves.getD 0 / shots_faced * 100)) else none
  let goals_conceded_adjusted : Option ℚ :=
    if 0 < shots_faced then some (round1 (goals_conceded.getD 0 / shots_faced * 100))
    else none
  fun k =>
    if k = "goals_per_90" then _per_90 (stats "goals") minutes
    else if k = "assists_per_90" then _per_90 (stats "assists") minutes
    else if k = "shots_per_90" then _per_90 (stats "shots_total") minutes
    else if k = "shots_on_per_90" then _per_90 (stats "shots_on") minutes
    else if k = "key_passes_per_90" then _per_90 (stats "key_passes") minutes
    else if k = "tackles_per_90" then _per_90 (stats "tackles_total") minutes
    else if k = "interceptions_per_90" then _per_90 (stats "interceptions") minutes
    else if k = "blocks_per_90" then _per_90 (stats "blocks") minutes
    else if k = "saves_per_90" then _per_90 (stats "saves") minutes
    else if k = "goals_conceded_per_90" then _per_90 (stats "goals_conceded") minutes
    else if k = "yellow_per_90" then _per_90 (stats "yellow_cards") minutes
    else if k = "red_per_90" then _per_90 (stats "red_cards") minutes
    else if k = "shot_accuracy_pct" then _pct (stats "shots_on") (stats "shots_total")
    else if k = "pass_accuracy" then stats "pass_accuracy"
    else if k = "duels_won_pct" then _pct (stats "duels_won") (stats "duels_total")
    else if k = "dribbles_success_pct" then
      _pct (stats "dribbles_success") (stats "dribbles_attempts")
    else if k = "minutes" then
      match minutes with
      | some m => if MIN_MINUTES ≤ m then some m else none
      | none => none
    else if k = "appearances" then stats "appearances"
    else if k = "rating" then _nullable_float rating
    else if k = "save_pct" then save_pct
    else if k = "goals_conceded_adjusted" then goals_conceded_adjusted
    else if k = "clean_sheet_rate" then clean_sheet_rate
    else if k = "penalty_saved_rate" then penalty_saved_rate
    else if k = "match_winning_goals" then none
    else if k = "points_contribution" then none
    else if k = "match_decisive_saves" then none
    else if k = "match_decisive_actions" then none
    else if k = "match_impact_index" then none
    else if k = "progressive_passes" then none
    else if k = "progressive_actions" then none
    else if k = "distribution_quality" then none
    else if k = "ball_recoveries" then none
    else if k = "xG_per_90" then none
    else none

example (stats : String → Option ℚ) (cs : List (ℚ × ℚ × ℚ)) :
    compute_player_metrics stats cs "captain" = none := rfl

-- ---------------------------------------------------------------------------
-- attribution_engine.py: role/tier configuration (lines 50-169)
-- ---------------------------------------------------------------------------

structure TierCfg where
  weight : ℤ
  metrics : List (String × ℤ)
deriving DecidableEq

structure RoleConfig where
  tier_a : TierCfg
  tier_b : TierCfg
  tier_c : TierCfg
  malus : List (String × ℤ)
deriving DecidableEq

def GOALKEEPER_CONFIG : RoleConfig :=
  { tier_a := ⟨70, [("saves_per_90", 25), ("goals_conceded_per_90", 25),
      ("clean_sheet_rate", 15), ("penalty_saved_rate", 5)]⟩
    tier_b := ⟨20, [("pass_accuracy", 8), ("distribution_quality", 5), ("minutes", 7)]⟩
    tier_c := ⟨10, [("match_decisive_saves", 10)]⟩
    malus := [("yellow_per_90", -4), ("red_per_90", -6)] }

def DEFENDER_CONFIG : RoleConfig :=
  { tier_a := ⟨65, [("tackles_per_90", 15), ("interceptions_per_90", 12),
      ("blocks_per_90", 8), ("duels_won_pct", 15), ("clean_sheet_rate", 15)]⟩
    tier_b := ⟨20, [("pass_accuracy", 8), ("progressive_passes", 5), ("minutes", 7)]⟩
    tier_c := ⟨15, [("goals_per_90", 8), ("match_decisive_actions", 7)]⟩
    malus := [("yellow_per_90", -4), ("red_per_90", -6)] }

def MIDFIELDER_CONFIG : RoleConfig :=
  { tier_a := ⟨60, [("key_passes_per_90", 14), ("assists_per_90", 12),
      ("pass_accuracy", 12), ("tackles_per_90", 10), ("duels_won_pct", 12)]⟩
    tier_b := ⟨25, [("progressive_actions", 8), ("ball_recoveries", 8), ("minutes", 9)]⟩
    tier_c := ⟨15, [("goals_per_90", 8), ("match_impact_index", 7)]⟩
    malus := [("yellow_per_90", -4), ("red_per_90", -6)] }

def ATTACKER_CONFIG : RoleConfig :=
  { tier_a := ⟨70, [("goals_per_90", 25), ("shots_on_per_90", 12), ("xG_per_90", 10),
      ("assists_per_90", 13), ("dribbles_success_pct", 10)]⟩
    tier_b := ⟨20, [("key_passes_per_90", 8), ("pass_accuracy", 5), ("minutes", 7)]⟩
    tier_c := ⟨10, [("match_winning_goals", 6), ("points_contribution", 4)]⟩
    malus := [("yellow_per_90", -4), ("red_per_90", -6)] }

def ROLE_CONFIGS : List (String × RoleConfig) := [
  ("Goalkeeper", GOALKEEPER_CONFIG),
  ("Defender", DEFENDER_CONFIG),
  ("Midfielder", MIDFIELDER_CONFIG),
  ("Attacker", ATTACKER_CONFIG)]

def CATEGORY_METRICS : List (String × List String) := [
  ("attack", ["goals_per_90", "shots_on_per_90", "shot_accuracy_pct",
    "xG_per_90", "dribbles_success_pct"]),
  ("creation", ["assists_per_90", "key_passes_per_90", "pass_accuracy",
    "progressive_passes", "progressive_actions", "distribution_quality"]),
  ("defense", ["tackles_per_90", "interceptions_per_90", "duels_won_pct",
    "blocks_per_90", "saves_per_90", "goals_conceded_per_90",
    "clean_sheet_rate", "ball_recoveries"]),
  ("impact", ["minutes", "rating", "appearances", "match_winning_goals",
    "points_contribution", "match_decisive_saves", "match_decisive_actions",
    "match_impact_index", "captain"])]

/-- The union of metric names across the three tiers (the source collects
them into a set; the deduplicated tier-order list has the same members, and
in every shipped config the three tiers are already disjoint). -/
def allTierMetrics (c : RoleConfig) : List String :=
  ((c.tier_a.metrics ++ c.tier_b.metrics ++ c.tier_c.metrics).map Prod.fst).dedup

-- ---------------------------------------------------------------------------
-- attribution_engine.py: scorer data model
-- ---------------------------------------------------------------------------

/-- One athlete's metric dict.  The numeric entries are the association list
`metrics`; the dict's `"position"` entry is a string, carried as a separate
field so the map stays single-typed. -/
structure PlayerRecord where
  metrics : List (String × Option ℚ)
  position : Option String
deriving DecidableEq

/-- `player_metrics.get(k)`: a key that is missing and a key stored as
`None` both yield `none`. -/
def pmGet (pm : PlayerRecord) (k : String) : Option ℚ :=
  (alookup pm.metrics k).join

/-- `{ role: { metric: sorted_values } }`. -/
def RoleDists : Type := List (String × List (String × List ℚ))

/-- `dist.get(metric, [])`. -/
def distGet (dist : List (String × List ℚ)) (m : String) : List ℚ :=
  (alookup dist m).getD []

/-- `position or player_metrics.get("position") or "Midfielder"` — Python's
`or` takes the second operand when the first is `None` or `""`. -/
def resolvePos (position : Option String) (pmpos : Option String) : String :=
  match position with
  | some s =>
    if s ≠ "" then s
    else match pmpos with
      | some t => if t ≠ "" then t else "Midfielder"
      | none => "Midfielder"
  | none =>
    match pmpos with
    | some t => if t ≠ "" then t else "Midfielder"
    | none => "Midfielder"

/-- The role the scorer actually uses: the resolved position if it has a
weight config, else the `Midfielder` fallback of line 262-263. -/
def resolvedRole (pm : PlayerRecord) (position : Option String) : String :=
  let pos0 := resolvePos position pm.position
  if (alookup ROLE_CONFIGS pos0).isSome then pos0 else "Midfielder"

def resolvedConfig (pm : PlayerRecord) (position : Option String) : RoleConfig :=
  (alookup ROLE_CONFIGS (resolvedRole pm position)).getD MIDFIELDER_CONFIG

def resolvedDist (pm : PlayerRecord) (rd : RoleDists) (position : Option String) :
    List (String × List ℚ) :=
  (alookup rd (resolvedRole pm position)).getD []

-- ---------------------------------------------------------------------------
-- attribution_engine.py: per-metric scoring (lines 281-314)
-- ---------------------------------------------------------------------------

/-- What the per-metric loop records: the raw value, the percentile `pct`
and the shrunk score. -/
structure MetricEval where
  value : ℚ
  pct : ℚ
  score : ℚ
deriving DecidableEq

/-- Body of the per-metric loop of `calculate_player_score` for one metric:
`none` models `continue` (value absent, or, for a distribution-ranked
metric, an absent/empty sorted list). -/
def metricEval (pm : PlayerRecord) (dist : List (String × List ℚ))
    (minutes : ℚ) (m : String) : Option MetricEval :=
  match pmGet pm m with
  | none => none
  | some value =>
    if m ∈ DIRECT_SCORE_METRICS then some ⟨value, value, _shrink value minutes⟩
    else
      let sorted_vals := distGet dist m
      if sorted_vals = [] then none
      else
        let pct0 := _empirical_percentile value sorted_vals
        let pct := if m ∈ INVERSE_METRICS then round1 (100 - pct0) else pct0
        some ⟨value, pct, _shrink pct minutes⟩

/-- The `metric_scores`/`breakdown` content accumulated by the loop over
`all_tier_metrics` (a set; the dict it fills does not depend on the
iteration order, which we fix as tier order). -/
def metricScoresList (c : RoleConfig) (pm : PlayerRecord)
    (dist : List (String × List ℚ)) (minutes : ℚ) : List (String × MetricEval) :=
  (allTierMetrics c).filterMap
    (fun m => (metricEval pm dist minutes m).map (fun e => (m, e)))

/-- `attribution_engine._compute_tier_score` (lines 208-221), reading the
scores dict built by the loop. -/
def _compute_tier_score (tier_metrics : List (String × ℤ))
    (scores : List (String × MetricEval)) : Option ℚ :=
  let components := tier_metrics.filterMap
    (fun mw => (alookup scores mw.1).map (fun e => (e.score, mw.2)))
  if components = [] then none
  else
    let total_w : ℚ := (components.map (fun sw => (sw.2 : ℚ))).sum
    some ((components.map (fun sw => sw.1 * (sw.2 : ℚ))).sum / total_w)

/-- The tier/weight scan of lines 300-306 (first tier containing the metric;
`("", 0)` if none does, as the loop initialises). -/
def tierWeightOf (c : RoleConfig) (m : String) : String × ℤ :=
  if (alookup c.tier_a.metrics m).isSome then ("tier_a", (alookup c.tier_a.metrics m).getD 0)
  else if (alookup c.tier_b.metrics m).isSome then ("tier_b", (alookup c.tier_b.metrics m).getD 0)
  else if (alookup c.tier_c.metrics m).isSome then ("tier_c", (alookup c.tier_c.metrics m).getD 0)
  else ("", 0)

/-- One entry of the diagnostic `breakdown` dict; scored metrics fill
`score`/`weight`, malus metrics fill `malus_contribution`/`max_penalty`. -/
structure BEntry where
  value : ℚ
  percentile : ℚ
  score : Option ℚ
  weight : Option ℤ
  tier : String
  malus_contribution : Option ℚ
  max_penalty : Option ℤ
deriving DecidableEq

def scoredBreakdown (c : RoleConfig) (scores : List (String × MetricEval)) :
    List (String × BEntry) :=
  scores.map (fun p =>
    (p.1, { value := round3 p.2.value
            percentile := round1 p.2.pct
            score := some (round1 p.2.score)
            weight := some (tierWeightOf c p.1).2
            tier := (tierWeightOf c p.1).1
            malus_contribution := none
            max_penalty := none }))

-- ---------------------------------------------------------------------------
-- attribution_engine.py: discipline malus (lines 337-358)
-- ---------------------------------------------------------------------------

structure MalusEval where
  value : ℚ
  pct : ℚ
  contribution : ℚ
  pen : ℤ
deriving DecidableEq

/-- Body of the malus loop for one `(metric, max_penalty)` pair. -/
def malusEval (pm : PlayerRecord) (dist : List (String × List ℚ))
    (reliability : ℚ) (mp : String × ℤ) : Option MalusEval :=
  match pmGet pm mp.1 with
  | none => none
  | some v =>
    let sorted_vals := distGet dist mp.1
    if sorted_vals = [] then none
    else
      let pct := _empirical_percentile v sorted_vals
      some ⟨v, pct, (mp.2 : ℚ) * (pct / 100) * reliability, mp.2⟩

def malusEntries (c : RoleConfig) (pm : PlayerRecord)
    (dist : List (String × List ℚ)) (reliability : ℚ) : List (String × MalusEval) :=
  c.malus.filterMap (fun mp => (malusEval pm dist reliability mp).map (fun e => (mp.1, e)))

def malusBreakdown (ment : List (String × MalusEval)) : List (String × BEntry) :=
  ment.map (fun p =>
    (p.1, { value := round3 p.2.value
            percentile := round1 p.2.pct
            score := none
            weight := none
            tier := "malus"
            malus_contribution := some (round2 p.2.contribution)
            max_penalty := some p.2.pen }))

-- ---------------------------------------------------------------------------
-- attribution_engine.py: calculate_player_score (lines 228-379)
-- ---------------------------------------------------------------------------

/-- The tier combination step (lines 316-326): the available tier scores
with their group weights, in tier order. -/
def tierScoreList (pm : PlayerRecord) (rd : RoleDists) (position : Option String)
    (minutes : ℚ) : List (ℚ × ℤ) :=
  let c := resolvedConfig pm position
  let scores := metricScoresList c pm (resolvedDist pm rd position) minutes
  [c.tier_a, c.tier_b, c.tier_c].filterMap
    (fun t => (_compute_tier_score t.metrics scores).map (fun ts => (ts, t.weight)))

structure ScoreResult where
  overall_score : Option ℚ
  attack_score : Option ℚ
  creation_score : Option ℚ
  defense_score : Option ℚ
  impact_score : Option ℚ
  discipline_malus : Option ℚ
  reliability_index : Option ℚ
  breakdown : Option (List (String × BEntry))
deriving DecidableEq

def nullResult : ScoreResult :=
  ⟨none, none, none, none, none, none, none, none⟩

/-- Category aggregation (lines 361-368). -/
def categoryScore (scores : List (String × MetricEval)) (cat_metrics : List String) :
    Option ℚ :=
  let ss := cat_metrics.filterMap (fun m => (alookup scores m).map (fun e => e.score))
  if ss = [] then none else some (round1 (ss.sum / (ss.length : ℚ)))

/-- The non-null branch of `calculate_player_score`: steps 2-4 of the
algorithm (base score from tiers, discipline malus, clipping, categories,
reliability index, breakdown), for an athlete that passed every guard. -/
def scoreBody (pm : PlayerRecord) (rd : RoleDists) (position : Option String)
    (minutes : ℚ) : ScoreResult :=
  let c := resolvedConfig pm position
  let dist := resolvedDist pm rd position
  let reliability := min 1 (minutes / RELIABILITY_MINUTES)
  let scores := metricScoresList c pm dist minutes
  let tiers := tierScoreList pm rd position minutes
  let total_tier_weight : ℚ := (tiers.map (fun p => (p.2 : ℚ))).sum
  let base_score := (tiers.map (fun p => p.1 * (p.2 : ℚ))).sum / total_tier_weight
  let ment := malusEntries c pm dist reliability
  let malus := (ment.map (fun p => p.2.contribution)).sum
  let discipline_malus := round1 (max (-10) malus)
  let overall_score := round1 (max 0 (min 100 (base_score + discipline_malus)))
  { overall_score := some overall_score
    attack_score := categoryScore scores ((alookup CATEGORY_METRICS "attack").getD [])
    creation_score := categoryScore scores ((alookup CATEGORY_METRICS "creation").getD [])
    defense_score := categoryScore scores ((alookup CATEGORY_METRICS "defense").getD [])
    impact_score := categoryScore scores ((alookup CATEGORY_METRICS "impact").getD [])
    discipline_malus := some discipline_malus
    reliability_index := some (round1 (reliability * 100))
    breakdown := some (scoredBreakdown c scores ++ malusBreakdown ment) }

/-- `attribution_engine.calculate_player_score`: the early-exit guards of
lines 259-268 and 328-329 around `scoreBody`. -/
def calculate_player_score (pm : PlayerRecord) (role_dists : RoleDists)
    (position : Option String) : ScoreResult :=
  match pmGet pm "minutes" with
  | none => nullResult
  | some minutes =>
    if minutes < MIN_MINUTES then nullResult
    else if resolvedDist pm role_dists position = [] then nullResult
    else if tierScoreList pm role_dists position minutes = [] then nullResult
    else scoreBody pm role_dists position minutes

-- ---------------------------------------------------------------------------
-- Basic facts about the empirical percentile
-- ---------------------------------------------------------------------------

theorem round1_zero : round1 (0 : ℚ) = 0 := by
  have h := round1_intCast 0
  norm_num at h
  exact h

theorem round1_hundred : round1 (100 : ℚ) = 100 := by
  have h := round1_intCast 100
  norm_num at h
  exact h

theorem bisect_left_le_right (l : List ℚ) (v : ℚ) :
    bisect_left l v ≤ bisect_right l v := by
  unfold bisect_left bisect_right
  apply List.countP_mono_left
  intro a _ h
  simp only [decide_eq_true_eq] at *
  linarith

theorem bisect_left_mono (l : List ℚ) {v w : ℚ} (h : v ≤ w) :
    bisect_left l v ≤ bisect_left l w := by
  unfold bisect_left
  apply List.countP_mono_left
  intro a _ ha
  simp only [decide_eq_true_eq] at *
  linarith

theorem bisect_right_mono (l : List ℚ) {v w : ℚ} (h : v ≤ w) :
    bisect_right l v ≤ bisect_right l w := by
  unfold bisect_right
  apply List.countP_mono_left
  intro a _ ha
  simp only [decide_eq_true_eq] at *
  linarith

/-- The pre-rounding midrank expression simplifies to
`(below + above) * 50 / n`. -/
theorem midrank_eq (below above : ℕ) (n : ℕ) :
    ((below : ℚ) + (1/2) * ((above : ℚ) - (below : ℚ))) / (n : ℚ) * 100
      = ((below : ℚ) + (above : ℚ)) * 50 / (n : ℚ) := by
  ring

theorem empirical_percentile_nonneg (v : ℚ) (l : List ℚ) :
    0 ≤ _empirical_percentile v l := by
  unfold _empirical_percentile
  dsimp only
  split_ifs with h
  · norm_num
  · rw [← round1_zero]
    apply round1_mono
    rw [midrank_eq]
    have hn : (0:ℚ) < (l.length : ℚ) := by
      have : 0 < l.length := Nat.pos_of_ne_zero h
      exact_mod_cast this
    positivity

theorem empirical_percentile_le_100 (v : ℚ) (l : List ℚ) :
    _empirical_percentile v l ≤ 100 := by
  unfold _empirical_percentile
  dsimp only
  split_ifs with h
  · norm_num
  · have hn : (0:ℚ) < (l.length : ℚ) := by
      have : 0 < l.length := Nat.pos_of_ne_zero h
      exact_mod_cast this
    have hb : (bisect_left l v : ℚ) ≤ (l.length : ℚ) := by
      exact_mod_cast List.countP_le_length _
    have ha : (bisect_right l v : ℚ) ≤ (l.length : ℚ) := by
      exact_mod_cast List.countP_le_length _
    have hle : ((bisect_left l v : ℚ) + (1/2) * ((bisect_right l v : ℚ) -
        (bisect_left l v : ℚ))) / (l.length : ℚ) * 100 ≤ 100 := by
      rw [midrank_eq, div_le_iff₀ hn]
      nlinarith
    calc round1 (((bisect_left l v : ℚ) + 1 / 2 * ((bisect_right l v : ℚ) -
          (bisect_left l v : ℚ))) / (l.length : ℚ) * 100)
        ≤ round1 100 := round1_mono hle
      _ = 100 := round1_hundred

theorem empirical_percentile_mono (l : List ℚ) {v w : ℚ} (h : v ≤ w) :
    _empirical_percentile v l ≤ _empirical_percentile w l := by
  unfold _empirical_percentile
  dsimp only
  split_ifs with hn
  · exact le_refl _
  · apply round1_mono
    rw [midrank_eq, midrank_eq]
    have hpos : (0:ℚ) < (l.length : ℚ) := by
      have : 0 < l.length := Nat.pos_of_ne_zero hn
      exact_mod_cast this
    have hb : (bisect_left l v : ℚ) ≤ (bisect_left l w : ℚ) := by
      exact_mod_cast bisect_left_mono l h
    have ha : (bisect_right l v : ℚ) ≤ (bisect_right l w : ℚ) := by
      exact_mod_cast bisect_right_mono l h
    gcongr

/-- The percentile always carries one decimal digit. -/
theorem empirical_percentile_tenth (v : ℚ) (l : List ℚ) :
    ∃ z : ℤ, _empirical_percentile v l = (z : ℚ) / 10 := by
  unfold _empirical_percentile
  dsimp only
  split_ifs
  · exact ⟨500, by norm_num⟩
  · exact ⟨_, rfl⟩

-- ---------------------------------------------------------------------------
-- Helper lemmas about the scorer's structure
-- ---------------------------------------------------------------------------

theorem metricEval_none_of_absent (pm : PlayerRecord) (dist : List (String × List ℚ))
    (minutes : ℚ) (m : String) (h : pmGet pm m = none) :
    metricEval pm dist minutes m = none := by
  unfold metricEval
  rw [h]

theorem metricEval_skip (pm : PlayerRecord) (dist : List (String × List ℚ))
    (minutes : ℚ) (m : String) (v : ℚ) (h : pmGet pm m = some v)
    (hd : m ∉ DIRECT_SCORE_METRICS) (hsv : distGet dist m = []) :
    metricEval pm dist minutes m = none := by
  unfold metricEval
  rw [h]
  dsimp only
  rw [if_neg hd, if_pos hsv]

theorem metricEval_rank (pm : PlayerRecord) (dist : List (String × List ℚ))
    (minutes : ℚ) (m : String) (v : ℚ) (h : pmGet pm m = some v)
    (hd : m ∉ DIRECT_SCORE_METRICS) (hi : m ∉ INVERSE_METRICS)
    (hsv : distGet dist m ≠ []) :
    metricEval pm dist minutes m =
      some ⟨v, _empirical_percentile v (distGet dist m),
        _shrink (_empirical_percentile v (distGet dist m)) minutes⟩ := by
  unfold metricEval
  rw [h]
  dsimp only
  rw [if_neg hd, if_neg hsv, if_neg hi]

theorem malusEval_none_of_absent (pm : PlayerRecord) (dist : List (String × List ℚ))
    (reliability : ℚ) (mp : String × ℤ) (h : pmGet pm mp.1 = none) :
    malusEval pm dist reliability mp = none := by
  unfold malusEval
  rw [h]

theorem malusEval_skip (pm : PlayerRecord) (dist : List (String × List ℚ))
    (reliability : ℚ) (mp : String × ℤ) (v : ℚ) (h : pmGet pm mp.1 = some v)
    (hsv : distGet dist mp.1 = []) :
    malusEval pm dist reliability mp = none := by
  unfold malusEval
  rw [h]
  dsimp only
  rw [if_pos hsv]

theorem malusEval_some (pm : PlayerRecord) (dist : List (String × List ℚ))
    (reliability : ℚ) (mp : String × ℤ) (v : ℚ) (h : pmGet pm mp.1 = some v)
    (hsv : distGet dist mp.1 ≠ []) :
    malusEval pm dist reliability mp =
      some ⟨v, _empirical_percentile v (distGet dist mp.1),
        (mp.2 : ℚ) * (_empirical_percentile v (distGet dist mp.1) / 100) * reliability,
        mp.2⟩ := by
  unfold malusEval
  rw [h]
  dsimp only
  rw [if_neg hsv]

/-- When every guard passes, the result is the assembled score body. -/
theorem calc_eq_scoreBody (pm : PlayerRecord) (rd : RoleDists)
    (position : Option String) (m : ℚ) (hm : pmGet pm "minutes" = some m)
    (h1 : ¬ m < MIN_MINUTES) (h2 : resolvedDist pm rd position ≠ [])
    (h3 : tierScoreList pm rd position m ≠ []) :
    calculate_player_score pm rd position = scoreBody pm rd position m := by
  unfold calculate_player_score
  rw [hm]
  dsimp only
  rw [if_neg h1, if_neg h2, if_neg h3]

theorem scoreBody_reliability_index (pm : PlayerRecord) (rd : RoleDists)
    (position : Option String) (m : ℚ) :
    (scoreBody pm rd position m).reliability_index
      = some (round1 (min 1 (m / RELIABILITY_MINUTES) * 100)) := rfl

theorem scoreBody_ne_null (pm : PlayerRecord) (rd : RoleDists)
    (position : Option String) (m : ℚ) :
    scoreBody pm rd position m ≠ nullResult := by
  intro h
  have h1 := congrArg ScoreResult.reliability_index h
  rw [scoreBody_reliability_index] at h1
  simp [nullResult] at h1

theorem sum_nonpos_of_forall (l : List ℚ) (h : ∀ x ∈ l, x ≤ 0) : l.sum ≤ 0 := by
  induction l with
  | nil => simp
  | cons a rest ih =>
    simp only [List.sum_cons]
    have ha := h a (List.mem_cons_self a rest)
    have hr := ih (fun x hx => h x (List.mem_cons_of_mem a hx))
    linarith

theorem alookup_cons {κ α : Type} [DecidableEq κ] (p : κ × α)
    (rest : List (κ × α)) (key : κ) :
    alookup (p :: rest) key = if key = p.1 then some p.2 else alookup rest key := by
  obtain ⟨k0, v0⟩ := p
  rfl

theorem alookup_append {α : Type} (a b : List (String × α)) (k : String)
    (h : alookup a k = none) : alookup (a ++ b) k = alookup b k := by
  induction a with
  | nil => rfl
  | cons p rest ih =>
    rw [List.cons_append, alookup_cons]
    rw [alookup_cons] at h
    by_cases hk : k = p.1
    · rw [if_pos hk] at h
      exact (Option.some_ne_none _ h).elim
    · rw [if_neg hk] at h
      rw [if_neg hk]
      exact ih h

-- ---------------------------------------------------------------------------
-- Claim C3: shrinkage
-- ---------------------------------------------------------------------------

theorem round1_num (q : ℚ) (z : ℤ) (h : q = (z : ℚ) / 10) : round1 q = q := by
  rw [h, round1_tenth_int]

theorem shrink_full (p m : ℚ) (hm : 1200 ≤ m) : _shrink p m = round1 p := by
  unfold _shrink RELIABILITY_MINUTES
  dsimp only
  have h1 : min 1 (m / 1200) = 1 := by
    apply min_eq_left
    rw [le_div_iff₀ (by norm_num : (0:ℚ) < 1200)]
    linarith
  rw [h1, show (50 : ℚ) + 1 * (p - 50) = p by ring]

/-- C3 (counterexample): at `p = 50.05` (not representable in one decimal)
and `minutes = 1200`, `shrink` returns `50.0`, not `p` unchanged, so the
claim's universally quantified "returns p unchanged" clause fails. -/
theorem C3_counterexample : _shrink (1001/20) 1200 = 50 ∧ (50 : ℚ) ≠ 1001/20 := by
  constructor
  · rw [shrink_full _ _ (le_refl _)]
    unfold round1 rnd
    norm_num [Int.floor_eq_iff, Int.even_iff]
  · norm_num

/-- C3 (amended): `shrink(p, minutes)` equals
`50 + min(1, minutes/1200) * (p - 50)` rounded to 1 decimal; at
`minutes = 0` it returns exactly `50.0` for any `p`; at `minutes ≥ 1200` it
returns `p` rounded to 1 decimal, hence `p` unchanged whenever `p` carries
at most one decimal digit (as every percentile produced by this engine
does). -/
theorem C3_shrink_spec (p m : ℚ) :
    _shrink p m = round1 (50 + min 1 (m / 1200) * (p - 50))
    ∧ _shrink p 0 = 50
    ∧ (1200 ≤ m → _shrink p m = round1 p)
    ∧ (1200 ≤ m → ∀ z : ℤ, p = (z : ℚ) / 10 → _shrink p m = p) := by
  refine ⟨rfl, ?_, fun hm => shrink_full p m hm, fun hm z hz => ?_⟩
  · unfold _shrink RELIABILITY_MINUTES
    dsimp only
    rw [show (0:ℚ) / 1200 = 0 by norm_num, min_eq_right (by norm_num : (0:ℚ) ≤ 1),
      show (50 : ℚ) + 0 * (p - 50) = 50 by ring]
    exact round1_num 50 500 (by norm_num)
  · rw [shrink_full p m hm, round1_num p z hz]

/-- C3 (witness): concrete instance at `p = 85`, `minutes = 1200`. -/
theorem C3_witness :
    (1200 : ℚ) ≤ 1200 ∧ (85 : ℚ) = ((850 : ℤ) : ℚ) / 10 ∧ _shrink 85 1200 = 85 :=
  ⟨le_refl _, by norm_num,
    (C3_shrink_spec 85 1200).2.2.2 (le_refl _) 850 (by norm_num)⟩

-- ---------------------------------------------------------------------------
-- Claim C7: percentile monotonicity and range
-- ---------------------------------------------------------------------------

/-- C7: for every fixed sorted value list, the empirical percentile is
monotonically non-decreasing in its value argument and always lies in
`[0, 100]`. -/
theorem C7_percentile_monotone_range (l : List ℚ) (hs : l.Sorted (· ≤ ·)) :
    (∀ v w : ℚ, v ≤ w → _empirical_percentile v l ≤ _empirical_percentile w l)
    ∧ ∀ v : ℚ, 0 ≤ _empirical_percentile v l ∧ _empirical_percentile v l ≤ 100 :=
  ⟨fun _ _ h => empirical_percentile_mono l h,
   fun v => ⟨empirical_percentile_nonneg v l, empirical_percentile_le_100 v l⟩⟩

/-- C7 (witness): concrete instance on the sorted list `[1, 2, 3]`. -/
theorem C7_witness : ([1, 2, 3] : List ℚ).Sorted (· ≤ ·)
    ∧ _empirical_percentile (3/2) [1, 2, 3] ≤ _empirical_percentile 2 [1, 2, 3]
    ∧ 0 ≤ _empirical_percentile (3/2) [1, 2, 3]
    ∧ _empirical_percentile (3/2) [1, 2, 3] ≤ 100 := by
  have hs : ([1, 2, 3] : List ℚ).Sorted (· ≤ ·) := by
    norm_num [List.sorted_cons]
  have h := C7_percentile_monotone_range [1, 2, 3] hs
  exact ⟨hs, h.1 (3/2) 2 (by norm_num), (h.2 (3/2)).1, (h.2 (3/2)).2⟩

-- ---------------------------------------------------------------------------
-- Claim C4: midrank percentile formula
-- ---------------------------------------------------------------------------

/-- C4 (counterexample): the code rounds the midrank formula to 1 decimal,
so at `v = 1` against `[1, 2, 3]` it returns `16.7`, not the exact
`(0 + 0.5·1)/3·100 = 50/3`. -/
theorem C4_counterexample :
    ([1, 2, 3] : List ℚ) ≠ []
    ∧ ([1, 2, 3] : List ℚ).Sorted (· ≤ ·)
    ∧ _empirical_percentile 1 [1, 2, 3] = 167/10
    ∧ ((bisect_left [1, 2, 3] 1 : ℚ)
        + (1/2) * ((bisect_right [1, 2, 3] 1 : ℚ) - (bisect_left [1, 2, 3] 1 : ℚ)))
        / (([1, 2, 3] : List ℚ).length : ℚ) * 100 = 50/3
    ∧ (167/10 : ℚ) ≠ 50/3 := by
  refine ⟨by simp, by norm_num [List.sorted_cons], ?_, ?_, by norm_num⟩
  · unfold _empirical_percentile bisect_left bisect_right round1 rnd
    norm_num [List.countP_cons, Int.floor_eq_iff]
  · unfold bisect_left bisect_right
    norm_num [List.countP_cons]

/-- C4 (amended): on a non-empty ascending list the empirical percentile is
the midrank formula `(strictly_below + 0.5·equal)/n·100` — computed from the
`bisect_left`/`bisect_right` boundaries — rounded to 1 decimal; the worked
example `v = 0.3` against `[0.1, 0.2, 0.3, 0.4, 0.5]` gives exactly `50.0`;
and for inverse metrics `100 − percentile` is already exact at 1 decimal, so
the scorer's `round(100 - pct, 1)` equals `100 - pct`. -/
theorem C4_percentile_formula (v : ℚ) (l : List ℚ) (hne : l ≠ [])
    (hs : l.Sorted (· ≤ ·)) :
    _empirical_percentile v l
      = round1 (((bisect_left l v : ℚ)
          + (1/2) * ((bisect_right l v : ℚ) - (bisect_left l v : ℚ)))
          / (l.length : ℚ) * 100)
    ∧ _empirical_percentile (3/10) [1/10, 2/10, 3/10, 4/10, 5/10] = 50
    ∧ round1 (100 - _empirical_percentile v l) = 100 - _empirical_percentile v l := by
  refine ⟨?_, ?_, ?_⟩
  · unfold _empirical_percentile
    dsimp only
    rw [if_neg (by simpa using hne)]
  · unfold _empirical_percentile bisect_left bisect_right round1 rnd
    norm_num [List.countP_cons]
  · obtain ⟨z, hz⟩ := empirical_percentile_tenth v l
    rw [hz]
    exact round1_num _ (1000 - z) (by push_cast; ring)

/-- C4 (witness): concrete instance at `v = 0.3` on the spec's example
list. -/
theorem C4_witness :
    ([1/10, 2/10, 3/10, 4/10, 5/10] : List ℚ) ≠ []
    ∧ ([1/10, 2/10, 3/10, 4/10, 5/10] : List ℚ).Sorted (· ≤ ·)
    ∧ _empirical_percentile (3/10) [1/10, 2/10, 3/10, 4/10, 5/10] = 50 := by
  have hne : ([1/10, 2/10, 3/10, 4/10, 5/10] : List ℚ) ≠ [] := by simp
  have hs : ([1/10, 2/10, 3/10, 4/10, 5/10] : List ℚ).Sorted (· ≤ ·) := by
    norm_num [List.sorted_cons]
  exact ⟨hne, hs, (C4_percentile_formula (3/10) _ hne hs).2.1⟩

-- ---------------------------------------------------------------------------
-- Claim C8: percentile of the median
-- ---------------------------------------------------------------------------

/-- For a strictly ascending list, the bisect boundaries at the `k`-th
element are exactly `k` and `k + 1`. -/
theorem bisect_counts_at_get (l : List ℚ) (hs : l.Sorted (· < ·)) (k : ℕ)
    (hk : k < l.length) :
    bisect_left l (l.get ⟨k, hk⟩) = k ∧ bisect_right l (l.get ⟨k, hk⟩) = k + 1 := by
  set v := l.get ⟨k, hk⟩ with hv
  set a := l.take k with ha
  set b := l.drop (k + 1) with hb
  have hdrop : l.drop k = v :: b := by
    rw [hb, hv, List.get_eq_getElem]
    exact List.drop_eq_getElem_cons hk
  have hl : l = a ++ v :: b := by
    rw [ha, ← hdrop]
    exact (List.take_append_drop k l).symm
  have hp : List.Pairwise (· < ·) (a ++ v :: b) := hl ▸ hs
  rcases List.pairwise_append.mp hp with ⟨_, hpb, hab⟩
  have hav : ∀ x ∈ a, x < v := fun x hx => hab x hx v (List.mem_cons_self v b)
  have hvb : ∀ y ∈ b, v < y := fun y hy => List.rel_of_pairwise_cons hpb hy
  have ha_len : a.length = k := by
    rw [ha, List.length_take]
    exact Nat.min_eq_left (le_of_lt hk)
  constructor
  · rw [show bisect_left l v = bisect_left (a ++ v :: b) v by rw [← hl]]
    unfold bisect_left
    rw [List.countP_append, List.countP_cons]
    have h1 : List.countP (fun x => decide (x < v)) a = a.length :=
      List.countP_eq_length.mpr (fun x hx => decide_eq_true (hav x hx))
    have h2 : List.countP (fun x => decide (x < v)) b = 0 :=
      List.countP_eq_zero.mpr (fun y hy => by
        simp only [decide_eq_true_eq]
        exact lt_asymm (hvb y hy))
    rw [h1, h2, ha_len]
    simp
  · rw [show bisect_right l v = bisect_right (a ++ v :: b) v by rw [← hl]]
    unfold bisect_right
    rw [List.countP_append, List.countP_cons]
    have h1 : List.countP (fun x => decide (x ≤ v)) a = a.length :=
      List.countP_eq_length.mpr (fun x hx => decide_eq_true (le_of_lt (hav x hx)))
    have h2 : List.countP (fun x => decide (x ≤ v)) b = 0 :=
      List.countP_eq_zero.mpr (fun y hy => by
        simp only [decide_eq_true_eq]
        exact not_le_of_lt (hvb y hy))
    rw [h1, h2, ha_len]
    simp

/-- C8 (counterexample): `[1, 1, 2]` is an odd-length ascending sorted list
whose median value is `1`, yet the midrank percentile at `1` is `33.3`, not
`50.0` (ties across the middle break the claim). -/
theorem C8_counterexample :
    ([1, 1, 2] : List ℚ).Sorted (· ≤ ·)
    ∧ ([1, 1, 2] : List ℚ).length % 2 = 1
    ∧ ([1, 1, 2] : List ℚ).getD (([1, 1, 2] : List ℚ).length / 2) 0 = 1
    ∧ _empirical_percentile 1 [1, 1, 2] = 333/10
    ∧ (333/10 : ℚ) ≠ 50 := by
  refine ⟨by norm_num [List.sorted_cons], by norm_num, by norm_num [List.getD], ?_,
    by norm_num⟩
  unfold _empirical_percentile bisect_left bisect_right round1 rnd
  norm_num [List.countP_cons, Int.floor_eq_iff]

/-- C8 (amended): for every odd-length STRICTLY ascending (duplicate-free)
sorted list, the empirical percentile at the list's median element is
exactly `50.0`. -/
theorem C8_median_fifty (l : List ℚ) (hs : l.Sorted (· < ·))
    (hodd : l.length % 2 = 1) (hk : l.length / 2 < l.length) :
    _empirical_percentile (l.get ⟨l.length / 2, hk⟩) l = 50 := by
  obtain ⟨hbl, hbr⟩ := bisect_counts_at_get l hs (l.length / 2) hk
  unfold _empirical_percentile
  dsimp only
  have hn0 : l.length ≠ 0 := by omega
  rw [if_neg hn0, hbl, hbr]
  set k := l.length / 2 with hkdef
  have hlen : l.length = 2 * k + 1 := by omega
  rw [hlen]
  have hmain : ((k : ℚ) + 1/2 * (((k + 1 : ℕ) : ℚ) - (k : ℚ)))
      / ((2 * k + 1 : ℕ) : ℚ) * 100 = 50 := by
    have hpos : ((2 * k + 1 : ℕ) : ℚ) ≠ 0 := Nat.cast_ne_zero.mpr (by omega)
    push_cast at hpos ⊢
    field_simp
    ring
  rw [hmain]
  exact round1_num 50 500 (by norm_num)

/-- C8 (witness): concrete instance on the strictly sorted odd list
`[1, 2, 3]`, whose median is `2`. -/
theorem C8_witness :
    ([1, 2, 3] : List ℚ).Sorted (· < ·)
    ∧ ([1, 2, 3] : List ℚ).length % 2 = 1
    ∧ _empirical_percentile
        (([1, 2, 3] : List ℚ).get ⟨([1, 2, 3] : List ℚ).length / 2, by norm_num⟩)
        [1, 2, 3] = 50 := by
  have hs : ([1, 2, 3] : List ℚ).Sorted (· < ·) := by norm_num [List.sorted_cons]
  exact ⟨hs, by norm_num, C8_median_fifty [1, 2, 3] hs (by norm_num) (by norm_num)⟩

-- ---------------------------------------------------------------------------
-- Claim C6: winsorizing
-- ---------------------------------------------------------------------------

theorem sorted_getD_mono (s : List ℚ) (hs : s.Sorted (· ≤ ·)) {i j : ℕ}
    (hij : i ≤ j) (hj : j < s.length) : s.getD i 0 ≤ s.getD j 0 := by
  have hi : i < s.length := lt_of_le_of_lt hij hj
  rw [List.getD_eq_getElem s 0 hi, List.getD_eq_getElem s 0 hj]
  rcases eq_or_lt_of_le hij with heq | hlt
  · subst heq
    exact le_refl _
  · exact List.Sorted.rel_get_of_lt hs (by exact hlt)

/-- C6: winsorizing preserves length; for `n < 10` it is the identity; for
`n ≥ 10` every output value lies between the element at the 1st-percentile
position and the element at the 99th-percentile position of the sorted
input. -/
theorem C6_winsorize_spec (values : List ℚ) :
    (_winsorize values).length = values.length
    ∧ (values.length < 10 → _winsorize values = values)
    ∧ (10 ≤ values.length →
        ∀ x ∈ _winsorize values,
          (values.insertionSort (· ≤ ·)).getD (values.length * 1 / 100) 0 ≤ x
          ∧ x ≤ (values.insertionSort (· ≤ ·)).getD
              (min (values.length - 1) (values.length * 99 / 100)) 0) := by
  unfold _winsorize
  dsimp only
  by_cases h : values.length < 10
  · rw [if_pos h]
    exact ⟨rfl, fun _ => rfl, fun h10 => absurd h (by omega)⟩
  · rw [if_neg h]
    have h10 : 10 ≤ values.length := by omega
    refine ⟨List.length_map _ _, fun hlt => absurd hlt h, fun _ x hx => ?_⟩
    obtain ⟨v, _, rfl⟩ := List.mem_map.mp hx
    have hmax0 : max 0 (values.length * 1 / 100) = values.length * 1 / 100 :=
      max_eq_right (Nat.zero_le _)
    rw [hmax0]
    have hsorted : (values.insertionSort (· ≤ ·)).Sorted (· ≤ ·) :=
      List.sorted_insertionSort _ values
    have hslen : (values.insertionSort (· ≤ ·)).length = values.length :=
      (List.perm_insertionSort _ values).length_eq
    have hij : values.length * 1 / 100
        ≤ min (values.length - 1) (values.length * 99 / 100) := by
      have h1 : values.length * 1 / 100 ≤ values.length * 99 / 100 :=
        Nat.div_le_div_right (Nat.mul_le_mul_left _ (by omega))
    --
      have h2 : values.length * 1 / 100 ≤ values.length - 1 := by
        have := Nat.div_lt_self (show 0 < values.length * 1 by omega) (show 1 < 100 by omega)
        omega
      exact le_min h2 h1
    have hjlt : min (values.length - 1) (values.length * 99 / 100)
        < (values.insertionSort (· ≤ ·)).length := by
      rw [hslen]
      have : min (values.length - 1) (values.length * 99 / 100) ≤ values.length - 1 :=
        min_le_left _ _
      omega
    have hlohi := sorted_getD_mono _ hsorted hij hjlt
    constructor
    · exact le_max_left _ _
    · exact max_le hlohi (min_le_left _ _)

/-- C6 (witness): concrete instance on a 10-element list (and a short
3-element list for the identity clause). -/
theorem C6_witness :
    (10 ≤ ([3, 1, 4, 1, 5, 9, 2, 6, 5, 4] : List ℚ).length)
    ∧ (∀ x ∈ _winsorize ([3, 1, 4, 1, 5, 9, 2, 6, 5, 4] : List ℚ),
        (([3, 1, 4, 1, 5, 9, 2, 6, 5, 4] : List ℚ).insertionSort (· ≤ ·)).getD
            (([3, 1, 4, 1, 5, 9, 2, 6, 5, 4] : List ℚ).length * 1 / 100) 0 ≤ x
        ∧ x ≤ (([3, 1, 4, 1, 5, 9, 2, 6, 5, 4] : List ℚ).insertionSort (· ≤ ·)).getD
            (min (([3, 1, 4, 1, 5, 9, 2, 6, 5, 4] : List ℚ).length - 1)
              (([3, 1, 4, 1, 5, 9, 2, 6, 5, 4] : List ℚ).length * 99 / 100)) 0)
    ∧ (([2, 7, 1] : List ℚ).length < 10 → _winsorize [2, 7, 1] = [2, 7, 1]) := by
  refine ⟨by norm_num, (C6_winsorize_spec _).2.2 (by norm_num), (C6_winsorize_spec _).2.1⟩

-- ---------------------------------------------------------------------------
-- Claim C9: position normalization
-- ---------------------------------------------------------------------------

theorem alookup_mem {κ α : Type} [DecidableEq κ] (l : List (κ × α)) (k : κ)
    (v : α) (h : alookup l k = some v) : (k, v) ∈ l := by
  induction l with
  | nil => cases h
  | cons p rest ih =>
    rw [alookup_cons] at h
    split_ifs at h with hk
    · have hv : p.2 = v := Option.some_injective _ h
      have heq : (k, v) = p := by
        rw [hk, ← hv]
      rw [heq]
      exact List.mem_cons_self p rest
    · exact List.mem_cons_of_mem _ (ih h)

theorem position_map_values (k v : String)
    (h : alookup _POSITION_MAP k = some v) : v ∈ VALID_ROLES := by
  have hall : ∀ p ∈ _POSITION_MAP, p.2 ∈ VALID_ROLES := by decide
  exact hall (k, v) (alookup_mem _POSITION_MAP k v h)

theorem valid_role_key_found (s : String) (h : s ∈ VALID_ROLES) :
    (alookup _POSITION_MAP (positionKey s)).isSome = true := by
  simp only [VALID_ROLES, List.mem_cons, List.not_mem_nil, or_false] at h
  rcases h with h | h | h | h <;> subst h <;> decide

theorem normalize_position_of_no_key (s : String) (hs0 : s ≠ "")
    (hnone : alookup _POSITION_MAP (positionKey s) = none) :
    normalize_position (some s) = "Midfielder" := by
  unfold normalize_position
  dsimp only
  rw [if_neg hs0, hnone]
  dsimp only
  by_cases hv : s ∈ VALID_ROLES
  · have := valid_role_key_found s hv
    rw [hnone] at this
    simp at this
  · rw [if_neg hv]

/-- C9: position normalization always returns one of the four canonical
roles; `None` and the empty string map to Midfielder; an input whose
case-insensitive stripped key is not in the lookup table maps to
Midfielder; and the result depends only on that case-insensitive key
(`raw.strip().lower()`), i.e. the lookup is case-insensitive. -/
theorem C9_normalize_position_spec (raw : Option String) :
    normalize_position raw ∈ VALID_ROLES
    ∧ normalize_position none = "Midfielder"
    ∧ normalize_position (some "") = "Midfielder"
    ∧ (∀ s : String, alookup _POSITION_MAP (positionKey s) = none →
        normalize_position (some s) = "Midfielder")
    ∧ (∀ s t : String, positionKey s = positionKey t →
        normalize_position (some s) = normalize_position (some t)) := by
  refine ⟨?_, rfl, by decide, ?_, ?_⟩
  · match raw with
    | none => decide
    | some s =>
      by_cases hs0 : s = ""
      · subst hs0
        decide
      · unfold normalize_position
        dsimp only
        rw [if_neg hs0]
        cases hl : alookup _POSITION_MAP (positionKey s) with
        | some v => exact position_map_values _ v hl
        | none =>
          dsimp only
          by_cases hv : s ∈ VALID_ROLES
          · rw [if_pos hv]
            exact hv
          · rw [if_neg hv]
            decide
  · intro s hnone
    by_cases hs0 : s = ""
    · subst hs0
      rfl
    · exact normalize_position_of_no_key s hs0 hnone
  · intro s t hkey
    by_cases hs0 : s = "" <;> by_cases ht0 : t = ""
    · subst hs0
      subst ht0
      rfl
    · subst hs0
      have hkt : alookup _POSITION_MAP (positionKey t) = none := by
        rw [← hkey]
        decide
      rw [normalize_position_of_no_key t ht0 hkt]
      rfl
    · subst ht0
      have hks : alookup _POSITION_MAP (positionKey s) = none := by
        rw [hkey]
        decide
      rw [normalize_position_of_no_key s hs0 hks]
      rfl
    · unfold normalize_position
      dsimp only
      rw [if_neg hs0, if_neg ht0, ← hkey]
      cases hl : alookup _POSITION_MAP (positionKey s) with
      | some v => rfl
      | none =>
        dsimp only
        have hvs : s ∉ VALID_ROLES := by
          intro hv
          have := valid_role_key_found s hv
          rw [hl] at this
          simp at this
        have hvt : t ∉ VALID_ROLES := by
          intro hv
          have := valid_role_key_found t hv
          rw [← hkey, hl] at this
          simp at this
        rw [if_neg hvs, if_neg hvt]

/-- C9 (witness): concrete instances — a case/whitespace variant of a known
label, an unknown label, and a membership check. -/
theorem C9_witness :
    positionKey "  STRIKER " = positionKey "striker"
    ∧ normalize_position (some "  STRIKER ") = "Attacker"
    ∧ alookup _POSITION_MAP (positionKey "libero") = none
    ∧ normalize_position (some "libero") = "Midfielder"
    ∧ normalize_position (some "Defender") ∈ VALID_ROLES := by
  have hkey : positionKey "  STRIKER " = positionKey "striker" := by decide
  refine ⟨hkey, ?_, by decide,
    (C9_normalize_position_spec none).2.2.2.1 "libero" (by decide),
    (C9_normalize_position_spec (some "Defender")).1⟩
  rw [(C9_normalize_position_spec none).2.2.2.2 "  STRIKER " "striker" hkey]
  decide

-- ---------------------------------------------------------------------------
-- Claim C2: the all-null result conditions
-- ---------------------------------------------------------------------------

/-- An athlete scored under an unrecognized role: the scorer falls back to
the Midfielder config and distribution. -/
def pmWiz : PlayerRecord := ⟨[("minutes", some 400), ("pass_accuracy", some 80)], none⟩

def rdWiz : RoleDists := [("Midfielder", [("pass_accuracy", [70, 80, 90])])]

/-- C2 (counterexample): `"Wizard"` has no weight tables, yet the result is
NOT all-null — the scorer silently falls back to the Midfielder
configuration and scores against the Midfielder distribution. -/
theorem C2_counterexample :
    alookup ROLE_CONFIGS "Wizard" = none
    ∧ calculate_player_score pmWiz rdWiz (some "Wizard") ≠ nullResult := by
  constructor
  · decide
  · have ht : tierScoreList pmWiz rdWiz (some "Wizard") 400
        = [((_shrink (_empirical_percentile 80 [70, 80, 90]) 400 * ((12 : ℤ) : ℚ) + 0)
            / (((12 : ℤ) : ℚ) + 0), 60)] := rfl
    have heq := calc_eq_scoreBody pmWiz rdWiz (some "Wizard") 400 (by decide)
      (by norm_num [MIN_MINUTES]) (by decide) (by rw [ht]; exact List.cons_ne_nil _ _)
    rw [heq]
    exact scoreBody_ne_null pmWiz rdWiz (some "Wizard") 400

/-- C2 (amended): `calculate_player_score` (a total function — absence is
propagated through options, never an error) returns the all-null result in
exactly four conditions: minutes is null; minutes is below the 300
threshold; the RESOLVED role's distribution is empty (an unrecognized or
unconfigured role is first silently resolved to Midfielder, so such a role
is scored against the Midfielder tables rather than yielding null); or no
tier metric produced a score. -/
theorem C2_null_characterization (pm : PlayerRecord) (rd : RoleDists)
    (position : Option String) :
    calculate_player_score pm rd position = nullResult
    ↔ (pmGet pm "minutes" = none
       ∨ (∃ m, pmGet pm "minutes" = some m ∧ m < MIN_MINUTES)
       ∨ resolvedDist pm rd position = []
       ∨ (∃ m, pmGet pm "minutes" = some m ∧ tierScoreList pm rd position m = [])) := by
  unfold calculate_player_score
  cases hm : pmGet pm "minutes" with
  | none =>
    dsimp only
    exact ⟨fun _ => Or.inl rfl, fun _ => rfl⟩
  | some m =>
    dsimp only
    split_ifs with h1 h2 h3
    · exact ⟨fun _ => Or.inr (Or.inl ⟨m, rfl, h1⟩), fun _ => rfl⟩
    · exact ⟨fun _ => Or.inr (Or.inr (Or.inl h2)), fun _ => rfl⟩
    · exact ⟨fun _ => Or.inr (Or.inr (Or.inr ⟨m, rfl, h3⟩)), fun _ => rfl⟩
    · constructor
      · intro habs
        exact absurd habs (scoreBody_ne_null pm rd position m)
      · intro hr
        exfalso
        rcases hr with h | ⟨m2, hm2, hlt⟩ | h | ⟨m2, hm2, hts⟩
        · cases h
        · cases hm2
          exact h1 hlt
        · exact h2 h
        · cases hm2
          exact h3 hts

-- ---------------------------------------------------------------------------
-- Claim C5: discipline malus bounds
-- ---------------------------------------------------------------------------

theorem resolvedConfig_cases (pm : PlayerRecord) (position : Option String) :
    resolvedConfig pm position = GOALKEEPER_CONFIG
    ∨ resolvedConfig pm position = DEFENDER_CONFIG
    ∨ resolvedConfig pm position = MIDFIELDER_CONFIG
    ∨ resolvedConfig pm position = ATTACKER_CONFIG := by
  unfold resolvedConfig
  cases h : alookup ROLE_CONFIGS (resolvedRole pm position) with
  | none =>
    right; right; left
    rfl
  | some c =>
    have hmem := alookup_mem ROLE_CONFIGS (resolvedRole pm position) c h
    simp only [ROLE_CONFIGS, List.mem_cons, List.not_mem_nil, or_false,
      Prod.mk.injEq] at hmem
    rcases hmem with ⟨-, rfl⟩ | ⟨-, rfl⟩ | ⟨-, rfl⟩ | ⟨-, rfl⟩
    · left; rfl
    · right; left; rfl
    · right; right; left; rfl
    · right; right; right; rfl

theorem resolvedConfig_malus_nonpos (pm : PlayerRecord) (position : Option String) :
    ∀ p ∈ (resolvedConfig pm position).malus, p.2 ≤ 0 := by
  rcases resolvedConfig_cases pm position with h | h | h | h <;> rw [h] <;> decide

/-- Every contribution summed by the malus loop is nonpositive: configured
penalties are negative, percentiles and the reliability factor
nonnegative. -/
theorem malus_sum_nonpos (c : RoleConfig) (pm : PlayerRecord)
    (dist : List (String × List ℚ)) (rel : ℚ)
    (hc : ∀ p ∈ c.malus, p.2 ≤ 0) (hrel : 0 ≤ rel) :
    ((malusEntries c pm dist rel).map (fun p => p.2.contribution)).sum ≤ 0 := by
  apply sum_nonpos_of_forall
  intro x hx
  simp only [List.mem_map] at hx
  obtain ⟨⟨mname, me⟩, hmem, rfl⟩ := hx
  unfold malusEntries at hmem
  simp only [List.mem_filterMap] at hmem
  obtain ⟨mp, hmp, hopt⟩ := hmem
  cases he : malusEval pm dist rel mp with
  | none =>
    rw [he] at hopt
    cases hopt
  | some e =>
    rw [he] at hopt
    have hme : e = me := by
      have := Option.some_injective _ hopt
      exact congrArg Prod.snd this
    subst hme
    unfold malusEval at he
    cases hv : pmGet pm mp.1 with
    | none =>
      rw [hv] at he
      cases he
    | some v =>
      rw [hv] at he
      dsimp only at he
      by_cases hsv : distGet dist mp.1 = []
      · rw [if_pos hsv] at he
        cases he
      · rw [if_neg hsv] at he
        have hee := Option.some_injective _ he
        rw [← hee]
        dsimp only
        have hpen : ((mp.2 : ℤ) : ℚ) ≤ 0 := by exact_mod_cast hc mp hmp
        have hpct : (0:ℚ) ≤ _empirical_percentile v (distGet dist mp.1) / 100 :=
          div_nonneg (empirical_percentile_nonneg _ _) (by norm_num)
        nlinarith [mul_nonneg hpct hrel]

theorem scoreBody_discipline_malus (pm : PlayerRecord) (rd : RoleDists)
    (position : Option String) (m : ℚ) :
    (scoreBody pm rd position m).discipline_malus
      = some (round1 (max (-10)
          ((malusEntries (resolvedConfig pm position) pm (resolvedDist pm rd position)
            (min 1 (m / RELIABILITY_MINUTES))).map (fun p => p.2.contribution)).sum)) := rfl

/-- The athlete below clears the minutes threshold and has a non-empty role
distribution, but no tier metric is scorable (the distribution only carries
`rating`, which no tier references), so the result — `discipline_malus`
included — is all-null. -/
def pmRate : PlayerRecord := ⟨[("minutes", some 300)], none⟩

def rdRate : RoleDists := [("Midfielder", [("rating", [1, 2, 3])])]

/-- C5 (counterexample): minutes = 300 ≥ threshold and the Midfielder
distribution is non-empty, yet `discipline_malus` is null, not a number in
`[-10, 0]`. -/
theorem C5_counterexample :
    pmGet pmRate "minutes" = some 300
    ∧ MIN_MINUTES ≤ 300
    ∧ resolvedDist pmRate rdRate none ≠ []
    ∧ (calculate_player_score pmRate rdRate none).discipline_malus = none := by
  exact ⟨by decide, by norm_num [MIN_MINUTES], by decide, rfl⟩

/-- C5 (amended): for minutes ≥ 300 and a non-empty resolved distribution,
`discipline_malus` is null exactly when no tier metric is scorable, and in
every other case it is a number in `[-10.0, 0.0]` regardless of the
magnitudes of the athlete's card metrics. -/
theorem C5_malus_bounds (pm : PlayerRecord) (rd : RoleDists)
    (position : Option String) (m : ℚ) (hm : pmGet pm "minutes" = some m)
    (h300 : MIN_MINUTES ≤ m) (hd : resolvedDist pm rd position ≠ []) :
    ((calculate_player_score pm rd position).discipline_malus = none
      ↔ tierScoreList pm rd position m = [])
    ∧ ∀ q, (calculate_player_score pm rd position).discipline_malus = some q →
        -10 ≤ q ∧ q ≤ 0 := by
  have h1 : ¬ m < MIN_MINUTES := not_lt.mpr h300
  by_cases ht : tierScoreList pm rd position m = []
  · have hnull : calculate_player_score pm rd position = nullResult := by
      unfold calculate_player_score
      rw [hm]
      dsimp only
      rw [if_neg h1, if_neg hd, if_pos ht]
    rw [hnull]
    exact ⟨⟨fun _ => ht, fun _ => rfl⟩, fun q hq => by cases hq⟩
  · have heq := calc_eq_scoreBody pm rd position m hm h1 hd ht
    rw [heq, scoreBody_discipline_malus]
    constructor
    · exact ⟨fun h => absurd h (Option.some_ne_none _), fun h => absurd h ht⟩
    · intro q hq
      have hq2 := Option.some_injective _ hq
      have hrel : (0:ℚ) ≤ min 1 (m / RELIABILITY_MINUTES) := by
        apply le_min (by norm_num)
        have hm0 : (0:ℚ) ≤ m := le_trans (by norm_num [MIN_MINUTES]) h300
        exact div_nonneg hm0 (by norm_num [RELIABILITY_MINUTES])
      have hS := malus_sum_nonpos (resolvedConfig pm position) pm
        (resolvedDist pm rd position) (min 1 (m / RELIABILITY_MINUTES))
        (resolvedConfig_malus_nonpos pm position) hrel
      rw [← hq2]
      constructor
      · have hlow : (-10 : ℚ) ≤ max (-10) (((malusEntries (resolvedConfig pm position)
            pm (resolvedDist pm rd position)
            (min 1 (m / RELIABILITY_MINUTES))).map (fun p => p.2.contribution)).sum) :=
          le_max_left _ _
        calc (-10 : ℚ) = round1 (-10) := (round1_num (-10) (-100) (by norm_num)).symm
        _ ≤ _ := round1_mono hlow
      · have hup : max (-10) (((malusEntries (resolvedConfig pm position)
            pm (resolvedDist pm rd position)
            (min 1 (m / RELIABILITY_MINUTES))).map (fun p => p.2.contribution)).sum)
            ≤ 0 := max_le (by norm_num) hS
        calc round1 _ ≤ round1 0 := round1_mono hup
        _ = 0 := round1_zero

/-- C5 (witness): a captain-free Attacker with 1200 minutes, a ranked
goals metric and a yellow-cards malus metric; the malus is a number in
`[-10, 0]`. -/
def pmA : PlayerRecord :=
  ⟨[("minutes", some 1200), ("goals_per_90", some (3/10)),
    ("yellow_per_90", some (1/2))], none⟩

def rdA : RoleDists :=
  [("Attacker", [("goals_per_90", [1/10, 2/10, 3/10, 4/10, 5/10]),
    ("yellow_per_90", [1/10, 3/10, 1/2])])]

theorem C5_witness :
    ∃ q : ℚ, (calculate_player_score pmA rdA (some "Attacker")).discipline_malus = some q
      ∧ -10 ≤ q ∧ q ≤ 0 := by
  have h := C5_malus_bounds pmA rdA (some "Attacker") 1200 (by decide)
    (by norm_num [MIN_MINUTES]) (by decide)
  have hlen : (tierScoreList pmA rdA (some "Attacker") 1200).length = 1 := rfl
  have ht : tierScoreList pmA rdA (some "Attacker") 1200 ≠ [] := by
    intro hcontra
    rw [hcontra] at hlen
    cases hlen
  cases hdm : (calculate_player_score pmA rdA (some "Attacker")).discipline_malus with
  | none => exact absurd (h.1.mp hdm) ht
  | some q => exact ⟨q, rfl, h.2 q hdm⟩

-- ---------------------------------------------------------------------------
-- Claim C1: captaincy is never scored by the engine
-- ---------------------------------------------------------------------------

theorem pmGet_cons_ne (pm : PlayerRecord) (v : Option ℚ) (k : String)
    (hk : k ≠ "captain") :
    pmGet ⟨("captain", v) :: pm.metrics, pm.position⟩ k = pmGet pm k := by
  unfold pmGet
  rw [show (PlayerRecord.mk (("captain", v) :: pm.metrics) pm.position).metrics
      = ("captain", v) :: pm.metrics from rfl, alookup_cons]
  rw [if_neg hk]

theorem metricEval_pm_congr (pm : PlayerRecord) (v : Option ℚ)
    (dist : List (String × List ℚ)) (minutes : ℚ) (m : String)
    (hm : m ≠ "captain") :
    metricEval ⟨("captain", v) :: pm.metrics, pm.position⟩ dist minutes m
      = metricEval pm dist minutes m := by
  unfold metricEval
  rw [pmGet_cons_ne pm v m hm]

theorem malusEval_pm_congr (pm : PlayerRecord) (v : Option ℚ)
    (dist : List (String × List ℚ)) (rel : ℚ) (mp : String × ℤ)
    (hm : mp.1 ≠ "captain") :
    malusEval ⟨("captain", v) :: pm.metrics, pm.position⟩ dist rel mp
      = malusEval pm dist rel mp := by
  unfold malusEval
  rw [pmGet_cons_ne pm v mp.1 hm]

theorem resolvedConfig_no_captain (pm : PlayerRecord) (position : Option String) :
    "captain" ∉ allTierMetrics (resolvedConfig pm position)
    ∧ "captain" ∉ (resolvedConfig pm position).malus.map Prod.fst := by
  rcases resolvedConfig_cases pm position with h | h | h | h <;> rw [h] <;>
    exact ⟨by decide, by decide⟩

theorem metricScoresList_pm_congr (c : RoleConfig) (pm : PlayerRecord)
    (v : Option ℚ) (dist : List (String × List ℚ)) (minutes : ℚ)
    (hcap : "captain" ∉ allTierMetrics c) :
    metricScoresList c ⟨("captain", v) :: pm.metrics, pm.position⟩ dist minutes
      = metricScoresList c pm dist minutes := by
  unfold metricScoresList
  apply List.filterMap_congr
  intro m hm
  have hne : m ≠ "captain" := fun h => hcap (h ▸ hm)
  rw [metricEval_pm_congr pm v dist minutes m hne]

theorem malusEntries_pm_congr (c : RoleConfig) (pm : PlayerRecord)
    (v : Option ℚ) (dist : List (String × List ℚ)) (rel : ℚ)
    (hcap : "captain" ∉ c.malus.map Prod.fst) :
    malusEntries c ⟨("captain", v) :: pm.metrics, pm.position⟩ dist rel
      = malusEntries c pm dist rel := by
  unfold malusEntries
  apply List.filterMap_congr
  intro mp hmp
  have hne : mp.1 ≠ "captain" := fun h => hcap (List.mem_map.mpr ⟨mp, hmp, h⟩)
  rw [malusEval_pm_congr pm v dist rel mp hne]

theorem tierScoreList_pm_congr (pm : PlayerRecord) (v : Option ℚ)
    (rd : RoleDists) (position : Option String) (minutes : ℚ) :
    tierScoreList ⟨("captain", v) :: pm.metrics, pm.position⟩ rd position minutes
      = tierScoreList pm rd position minutes := by
  unfold tierScoreList
  dsimp only
  have hc : resolvedConfig ⟨("captain", v) :: pm.metrics, pm.position⟩ position
      = resolvedConfig pm position := rfl
  have hd : resolvedDist ⟨("captain", v) :: pm.metrics, pm.position⟩ rd position
      = resolvedDist pm rd position := rfl
  rw [hc, hd, metricScoresList_pm_congr _ pm v _ minutes
    (resolvedConfig_no_captain pm position).1]

theorem scoreBody_pm_congr (pm : PlayerRecord) (v : Option ℚ) (rd : RoleDists)
    (position : Option String) (minutes : ℚ) :
    scoreBody ⟨("captain", v) :: pm.metrics, pm.position⟩ rd position minutes
      = scoreBody pm rd position minutes := by
  unfold scoreBody
  dsimp only
  have hc : resolvedConfig ⟨("captain", v) :: pm.metrics, pm.position⟩ position
      = resolvedConfig pm position := rfl
  have hd : resolvedDist ⟨("captain", v) :: pm.metrics, pm.position⟩ rd position
      = resolvedDist pm rd position := rfl
  rw [hc, hd, metricScoresList_pm_congr _ pm v _ minutes
    (resolvedConfig_no_captain pm position).1,
    malusEntries_pm_congr _ pm v _ _ (resolvedConfig_no_captain pm position).2,
    tierScoreList_pm_congr pm v rd position minutes]

theorem mem_fst_metricScoresList (c : RoleConfig) (pm : PlayerRecord)
    (dist : List (String × List ℚ)) (minutes : ℚ) (m : String)
    (h : m ∈ (metricScoresList c pm dist minutes).map Prod.fst) :
    m ∈ allTierMetrics c := by
  unfold metricScoresList at h
  simp only [List.mem_map, List.mem_filterMap] at h
  obtain ⟨p, ⟨m2, hm2, hopt⟩, rfl⟩ := h
  cases he : metricEval pm dist minutes m2 with
  | none =>
    rw [he] at hopt
    cases hopt
  | some e =>
    rw [he] at hopt
    have := Option.some_injective _ hopt
    rw [← this]
    exact hm2

theorem mem_fst_malusEntries (c : RoleConfig) (pm : PlayerRecord)
    (dist : List (String × List ℚ)) (rel : ℚ) (m : String)
    (h : m ∈ (malusEntries c pm dist rel).map Prod.fst) :
    m ∈ c.malus.map Prod.fst := by
  unfold malusEntries at h
  simp only [List.mem_map, List.mem_filterMap] at h
  obtain ⟨p, ⟨mp, hmp, hopt⟩, rfl⟩ := h
  cases he : malusEval pm dist rel mp with
  | none =>
    rw [he] at hopt
    cases hopt
  | some e =>
    rw [he] at hopt
    have := Option.some_injective _ hopt
    rw [← this]
    exact List.mem_map.mpr ⟨mp, hmp, rfl⟩

/-- Whatever the inputs, the diagnostic breakdown the scorer returns never
carries a `captain` entry. -/
theorem breakdown_no_captain (pm : PlayerRecord) (rd : RoleDists)
    (position : Option String) (b : List (String × BEntry))
    (hb : (calculate_player_score pm rd position).breakdown = some b) :
    alookup b "captain" = none := by
  unfold calculate_player_score at hb
  cases hm : pmGet pm "minutes" with
  | none =>
    rw [hm] at hb
    cases hb
  | some m =>
    rw [hm] at hb
    dsimp only at hb
    split_ifs at hb
    · simp [nullResult] at hb
    · simp [nullResult] at hb
    · simp [nullResult] at hb
    have hb2 : (scoreBody pm rd position m).breakdown = some b := hb
    rw [show (scoreBody pm rd position m).breakdown
        = some (scoredBreakdown (resolvedConfig pm position)
            (metricScoresList (resolvedConfig pm position) pm
              (resolvedDist pm rd position) m)
          ++ malusBreakdown (malusEntries (resolvedConfig pm position) pm
              (resolvedDist pm rd position) (min 1 (m / RELIABILITY_MINUTES))))
        from rfl] at hb2
    have hbe := Option.some_injective _ hb2
    rw [← hbe]
    have h1 : alookup (scoredBreakdown (resolvedConfig pm position)
        (metricScoresList (resolvedConfig pm position) pm
          (resolvedDist pm rd position) m)) "captain" = none := by
      apply alookup_eq_none
      intro hmem
      apply (resolvedConfig_no_captain pm position).1
      apply mem_fst_metricScoresList (resolvedConfig pm position) pm
        (resolvedDist pm rd position) m
      unfold scoredBreakdown at hmem
      rw [List.map_map] at hmem
      exact hmem
    rw [alookup_append _ _ _ h1]
    apply alookup_eq_none
    intro hmem
    apply (resolvedConfig_no_captain pm position).2
    apply mem_fst_malusEntries (resolvedConfig pm position) pm
      (resolvedDist pm rd position) (min 1 (m / RELIABILITY_MINUTES))
    unfold malusBreakdown at hmem
    rw [List.map_map] at hmem
    exact hmem

/-- C1: the engine never scores captaincy, although its constants declare
the intent.  `DIRECT_SCORE_METRICS` lists `captain` and the fixed values
`85.0`/`40.0` exist as `CAPTAIN_SCORE_YES`/`CAPTAIN_SCORE_NO`, but (i) no
role's tier tables mention `captain`, so the per-metric loop never evaluates
it; (ii) the derived-metric set built by `compute_player_metrics` carries no
`captain` key at all (the boolean flag is never mapped to 85/40);
(iii) the returned breakdown never carries a `captain` entry (no captaincy
percentile of 85/40 is ever recorded); and (iv) the captaincy entry of an
athlete's metric dict has no effect whatsoever on the scorer's output. -/
theorem C1_captain_never_scored :
    ("captain" ∈ DIRECT_SCORE_METRICS ∧ CAPTAIN_SCORE_YES = 85 ∧ CAPTAIN_SCORE_NO = 40)
    ∧ ("captain" ∉ allTierMetrics GOALKEEPER_CONFIG
        ∧ "captain" ∉ allTierMetrics DEFENDER_CONFIG
        ∧ "captain" ∉ allTierMetrics MIDFIELDER_CONFIG
        ∧ "captain" ∉ allTierMetrics ATTACKER_CONFIG)
    ∧ (∀ (stats : String → Option ℚ) (cs : List (ℚ × ℚ × ℚ)),
        compute_player_metrics stats cs "captain" = none)
    ∧ (∀ (pm : PlayerRecord) (rd : RoleDists) (position : Option String)
        (b : List (String × BEntry)),
        (calculate_player_score pm rd position).breakdown = some b →
          alookup b "captain" = none)
    ∧ (∀ (pm : PlayerRecord) (rd : RoleDists) (position : Option String) (v : Option ℚ),
        calculate_player_score ⟨("captain", v) :: pm.metrics, pm.position⟩ rd position
          = calculate_player_score pm rd position) := by
  refine ⟨⟨by decide, rfl, rfl⟩, ⟨by decide, by decide, by decide, by decide⟩,
    fun stats cs => rfl, fun pm rd position b hb => breakdown_no_captain pm rd position b hb,
    fun pm rd position v => ?_⟩
  unfold calculate_player_score
  rw [pmGet_cons_ne pm v "minutes" (by decide)]
  cases pmGet pm "minutes" with
  | none => rfl
  | some m =>
    dsimp only
    rw [show resolvedDist ⟨("captain", v) :: pm.metrics, pm.position⟩ rd position
        = resolvedDist pm rd position from rfl,
      tierScoreList_pm_congr pm v rd position m,
      scoreBody_pm_congr pm v rd position m]

/-- A captained athlete (the claimed failing input) and the same athlete
without the flag. -/
def pmCap : PlayerRecord :=
  ⟨[("captain", some 1), ("minutes", some 1200), ("pass_accuracy", some 80)],
   some "Midfielder"⟩

def pmNoCap : PlayerRecord :=
  ⟨[("minutes", some 1200), ("pass_accuracy", some 80)], some "Midfielder"⟩

def rdCap : RoleDists := [("Midfielder", [("pass_accuracy", [70, 80, 90])])]

/-- C1 (witness): a concrete captained athlete — the captaincy flag is
present, the returned breakdown has no captain entry, and the flag's
presence does not change the result. -/
theorem C1_witness :
    pmGet pmCap "captain" = some 1
    ∧ alookup ((calculate_player_score pmCap rdCap none).breakdown.getD []) "captain"
        = none
    ∧ calculate_player_score ⟨("captain", some 1) :: pmNoCap.metrics, pmNoCap.position⟩
        rdCap none
        = calculate_player_score pmNoCap rdCap none := by
  refine ⟨by decide, ?_, C1_captain_never_scored.2.2.2.2 pmNoCap rdCap none (some 1)⟩
  exact C1_captain_never_scored.2.2.2.1 pmCap rdCap none
    ((calculate_player_score pmCap rdCap none).breakdown.getD []) rfl

-- ---------------------------------------------------------------------------
-- Claim C10: the scorer does not mutate its inputs
-- ---------------------------------------------------------------------------

/-- The mutable environment a Python call actually sees: the athlete's
metric dict and the role-distribution dict.  Every dict operation the source
performs on them is a read; the state-passing embedding below threads this
state through each such read so that "the inputs are unchanged after the
call" is expressible. -/
structure EngineState where
  player_metrics : PlayerRecord
  role_dists : RoleDists

/-- `player_metrics.get(k)` as a state access. -/
def readPM (st : EngineState) (k : String) : Option ℚ × EngineState :=
  (pmGet st.player_metrics k, st)

/-- `player_metrics.get("position")` as a state access. -/
def readPosition (st : EngineState) : Option String × EngineState :=
  (st.player_metrics.position, st)

/-- `role_dists.get(pos, {})` as a state access. -/
def readRoleDist (st : EngineState) (role : String) :
    List (String × List ℚ) × EngineState :=
  ((alookup st.role_dists role).getD [], st)

/-- `dist.get(metric, [])` as a state access (the local `dist` aliases the
dict stored in the state under `role`). -/
def readDistList (st : EngineState) (role m : String) : List ℚ × EngineState :=
  (distGet ((alookup st.role_dists role).getD []) m, st)

def stMetricEval (st : EngineState) (role : String) (minutes : ℚ) (m : String) :
    Option MetricEval × EngineState :=
  match readPM st m with
  | (none, st1) => (none, st1)
  | (some value, st1) =>
    if m ∈ DIRECT_SCORE_METRICS then (some ⟨value, value, _shrink value minutes⟩, st1)
    else
      match readDistList st1 role m with
      | (sv, st2) =>
        if sv = [] then (none, st2)
        else
          let pct0 := _empirical_percentile value sv
          let pct := if m ∈ INVERSE_METRICS then round1 (100 - pct0) else pct0
          (some ⟨value, pct, _shrink pct minutes⟩, st2)

/-- The `for metric in all_tier_metrics` loop, threading the state through
each iteration's reads while building the `metric_scores` entries. -/
def stScoresLoop (role : String) (minutes : ℚ) :
    List String → EngineState → List (String × MetricEval) × EngineState
  | [], st => ([], st)
  | m :: rest, st =>
    match stMetricEval st role minutes m with
    | (eOpt, st1) =>
      match stScoresLoop role minutes rest st1 with
      | (tail, st2) =>
        (match eOpt with
         | none => tail
         | some e => (m, e) :: tail, st2)

def stMalusEval (st : EngineState) (role : String) (rel : ℚ) (mp : String × ℤ) :
    Option MalusEval × EngineState :=
  match readPM st mp.1 with
  | (none, st1) => (none, st1)
  | (some v, st1) =>
    match readDistList st1 role mp.1 with
    | (sv, st2) =>
      if sv = [] then (none, st2)
      else
        let pct := _empirical_percentile v sv
        (some ⟨v, pct, (mp.2 : ℚ) * (pct / 100) * rel, mp.2⟩, st2)

/-- The malus loop, threading the state through each iteration's reads. -/
def stMalusLoop (role : String) (rel : ℚ) :
    List (String × ℤ) → EngineState → List (String × MalusEval) × EngineState
  | [], st => ([], st)
  | mp :: rest, st =>
    match stMalusEval st role rel mp with
    | (eOpt, st1) =>
      match stMalusLoop role rel rest st1 with
      | (tail, st2) =>
        (match eOpt with
         | none => tail
         | some e => (mp.1, e) :: tail, st2)

/-- `calculate_player_score` with every read of the two input dicts made an
explicit state access. -/
def calculate_player_score_st (st : EngineState) (position : Option String) :
    ScoreResult × EngineState :=
  match readPosition st with
  | (pmpos, st0) =>
    let pos0 := resolvePos position pmpos
    let role := if (alookup ROLE_CONFIGS pos0).isSome then pos0 else "Midfielder"
    let c := (alookup ROLE_CONFIGS role).getD MIDFIELDER_CONFIG
    match readPM st0 "minutes" with
    | (none, st1) => (nullResult, st1)
    | (some minutes, st1) =>
      if minutes < MIN_MINUTES then (nullResult, st1)
      else
        match readRoleDist st1 role with
        | (dist, st2) =>
          if dist = [] then (nullResult, st2)
          else
            let reliability := min 1 (minutes / RELIABILITY_MINUTES)
            match stScoresLoop role minutes (allTierMetrics c) st2 with
            | (scores, st3) =>
              let tiers := [c.tier_a, c.tier_b, c.tier_c].filterMap
                (fun t => (_compute_tier_score t.metrics scores).map (fun ts => (ts, t.weight)))
              if tiers = [] then (nullResult, st3)
              else
                match stMalusLoop role reliability c.malus st3 with
                | (ment, st4) =>
                  let total_tier_weight : ℚ := (tiers.map (fun p => (p.2 : ℚ))).sum
                  let base_score := (tiers.map (fun p => p.1 * (p.2 : ℚ))).sum / total_tier_weight
                  let malus := (ment.map (fun p => p.2.contribution)).sum
                  let discipline_malus := round1 (max (-10) malus)
                  let overall_score := round1 (max 0 (min 100 (base_score + discipline_malus)))
                  ({ overall_score := some overall_score
                     attack_score := categoryScore scores ((alookup CATEGORY_METRICS "attack").getD [])
                     creation_score := categoryScore scores ((alookup CATEGORY_METRICS "creation").getD [])
                     defense_score := categoryScore scores ((alookup CATEGORY_METRICS "defense").getD [])
                     impact_score := categoryScore scores ((alookup CATEGORY_METRICS "impact").getD [])
                     discipline_malus := some discipline_malus
                     reliability_index := some (round1 (reliability * 100))
                     breakdown := some (scoredBreakdown c scores ++ malusBreakdown ment) }, st4)

theorem stMetricEval_spec (st : EngineState) (role : String) (minutes : ℚ)
    (m : String) :
    stMetricEval st role minutes m
      = (metricEval st.player_metrics ((alookup st.role_dists role).getD []) minutes m,
         st) := by
  unfold stMetricEval metricEval readPM readDistList
  cases pmGet st.player_metrics m with
  | none => rfl
  | some v =>
    dsimp only
    split_ifs <;> rfl

theorem stMalusEval_spec (st : EngineState) (role : String) (rel : ℚ)
    (mp : String × ℤ) :
    stMalusEval st role rel mp
      = (malusEval st.player_metrics ((alookup st.role_dists role).getD []) rel mp,
         st) := by
  unfold stMalusEval malusEval readPM readDistList
  cases pmGet st.player_metrics mp.1 with
  | none => rfl
  | some v =>
    dsimp only
    split_ifs <;> rfl

theorem stScoresLoop_spec (role : String) (minutes : ℚ) (L : List String)
    (st : EngineState) :
    stScoresLoop role minutes L st
      = (L.filterMap (fun m =>
          (metricEval st.player_metrics ((alookup st.role_dists role).getD []) minutes m).map
            (fun e => (m, e))), st) := by
  induction L with
  | nil => rfl
  | cons m rest ih =>
    unfold stScoresLoop
    rw [stMetricEval_spec]
    dsimp only
    rw [ih]
    dsimp only
    rw [List.filterMap_cons]
    cases metricEval st.player_metrics ((alookup st.role_dists role).getD []) minutes m with
    | none => rfl
    | some e => rfl

theorem stMalusLoop_spec (role : String) (rel : ℚ) (L : List (String × ℤ))
    (st : EngineState) :
    stMalusLoop role rel L st
      = (L.filterMap (fun mp =>
          (malusEval st.player_metrics ((alookup st.role_dists role).getD []) rel mp).map
            (fun e => (mp.1, e))), st) := by
  induction L with
  | nil => rfl
  | cons mp rest ih =>
    unfold stMalusLoop
    rw [stMalusEval_spec]
    dsimp only
    rw [ih]
    dsimp only
    rw [List.filterMap_cons]
    cases malusEval st.player_metrics ((alookup st.role_dists role).getD []) rel mp with
    | none => rfl
    | some e => rfl

/-- C10: the scorer leaves its inputs untouched.  Every operation the source
performs on the metric dict and the distribution dict is a read; threading
them as explicit state through each access, the final state equals the
initial one (both the metrics mapping and the role-distribution mapping with
all its value lists), and the produced result is exactly the pure
`calculate_player_score` of the initial state — so a built distribution can
be reused across any number of scoring calls. -/
theorem C10_no_input_mutation (st : EngineState) (position : Option String) :
    (calculate_player_score_st st position).2 = st
    ∧ (calculate_player_score_st st position).2.player_metrics = st.player_metrics
    ∧ (calculate_player_score_st st position).2.role_dists = st.role_dists
    ∧ (calculate_player_score_st st position).1
        = calculate_player_score st.player_metrics st.role_dists position := by
  have hrole : (if (alookup ROLE_CONFIGS (resolvePos position st.player_metrics.position)).isSome
      then resolvePos position st.player_metrics.position else "Midfielder")
      = resolvedRole st.player_metrics position := rfl
  have hmain : calculate_player_score_st st position
      = (calculate_player_score st.player_metrics st.role_dists position, st) := by
    unfold calculate_player_score_st calculate_player_score readPosition readPM readRoleDist
      scoreBody tierScoreList metricScoresList malusEntries resolvedDist resolvedConfig
    dsimp only
    rw [hrole]
    cases pmGet st.player_metrics "minutes" with
    | none => rfl
    | some minutes =>
      dsimp only
      rw [stScoresLoop_spec]
      dsimp only
      rw [stMalusLoop_spec]
      dsimp only
      split_ifs <;> rfl
  rw [hmain]
  exact ⟨rfl, rfl, rfl, rfl⟩

end Calcio
